import Mathlib

/-!
Verification of the path-detection module (src/path_detector.py).

The module analyzes a binarized mask (a h x w grid whose non-zero pixels mark
road boundaries).  Its pipeline is:

  profile          -- samples `num` equidistant points on a straight segment
                      (np.linspace for the coordinates, scipy
                      ndimage.map_coordinates with spline order 0 for the
                      values, i.e. nearest-pixel lookup with constant value 0
                      outside the grid);
  find_center      -- scans 40 samples to the left and 40 to the right of a
                      reference point, takes the first non-zero sample on each
                      side as the boundary contact (fixed fallback offsets
                      -100 / +30 when a side has none), and returns the integer
                      midpoint of the two contacts;
  model_to_heading -- converts the vector from the car center to the road
                      center into a signed angle in degrees,
                      heading = -atan2(dx, -dy) * 180 / pi;
  detect           -- unpacks the mask shape, picks the reference column
                      x0 = int(w / 2) and row y0 = int(h * 0.6), and returns
                      the heading of the road center found on that row.

Real-number arithmetic of the Python floats is modelled exactly over the
rationals for the coordinate computations (all of which are exact in IEEE
doubles for realistic frame sizes) and over the reals for the trigonometry.
-/

namespace PathDetector

/-- A 2-D mask: height, width, and a pixel lookup indexed as pixel x y.
Only the zero / non-zero distinction of the values matters to the module. -/
structure Mask where
  height : ℕ
  width : ℕ
  pixel : ℤ → ℤ → ℚ

/-- Python int() conversion applied to a real value: truncation toward zero. -/
def pyInt (q : ℚ) : ℤ := if q < 0 then -⌊-q⌋ else ⌊q⌋

/-- The index rounding performed by scipy map_coordinates with spline order 0:
the sampled index is floor(coordinate + 1/2), the nearest grid point. -/
def rnd (q : ℚ) : ℤ := ⌊q + 1 / 2⌋

/-- Whether a rounded coordinate pair lies inside the mask grid. -/
def inGrid (mask : Mask) (xi yi : ℤ) : Prop :=
  0 ≤ xi ∧ xi < (mask.width : ℤ) ∧ 0 ≤ yi ∧ yi < (mask.height : ℤ)

instance (mask : Mask) (xi yi : ℤ) : Decidable (inGrid mask xi yi) := by
  unfold inGrid; infer_instance

/-- Order-0 sample of the mask at continuous coordinates (x, y): the value of
the nearest pixel, or the constant 0 when the nearest index falls outside the
grid (map_coordinates default mode constant, cval 0). -/
def sampleMask (mask : Mask) (x y : ℚ) : ℚ :=
  if inGrid mask (rnd x) (rnd y) then mask.pixel (rnd x) (rnd y) else 0

/-- The i-th of num equidistant values from a to b (inclusive ends). -/
def linAt (a b : ℚ) (num i : ℕ) : ℚ :=
  a + (b - a) * (i : ℚ) / ((num : ℚ) - 1)

/-- np.linspace a b num: num equidistant values from a to b, both inclusive. -/
def linspace (a b : ℚ) (num : ℕ) : List ℚ :=
  (List.range num).map (linAt a b num)

/-- profile(mask, p0, p1, num): takes num equidistant samples on the straight
line between p0 and p1.  Returns the sampled x-coordinates, the sampled
y-coordinates, and the sampled values, where vals[i] is the mask value at
(y-coordinate m[i], x-coordinate n[i]). -/
def profile (mask : Mask) (p0 p1 : ℚ × ℚ) (num : ℕ) :
    List ℚ × List ℚ × List ℚ :=
  let n := linspace p0.1 p1.1 num
  let m := linspace p0.2 p1.2 num
  (n, m, List.zipWith (fun xc yc => sampleMask mask xc yc) n m)

/-- Index of the first non-zero entry of a value list:
np.nonzero(vals)[0] is empty exactly when this is none, and its first
element is this index otherwise. -/
def firstNonzero (vals : List ℚ) : Option ℕ :=
  vals.findIdx? (fun v => v != 0)

/-- The 40-sample scan of find_center from the reference point (x, y) toward
(x - sample_width, y), where sample_width = int(img_width / 2). -/
def leftScan (mask : Mask) (x y : ℤ) : List ℚ × List ℚ × List ℚ :=
  profile mask ((x : ℚ), (y : ℚ))
    (((x - (mask.width / 2 : ℕ) : ℤ) : ℚ), (y : ℚ)) 40

/-- The 40-sample scan of find_center from the reference point (x, y) toward
(x + sample_width, y), where sample_width = int(img_width / 2). -/
def rightScan (mask : Mask) (x y : ℤ) : List ℚ × List ℚ × List ℚ :=
  profile mask ((x : ℚ), (y : ℚ))
    (((x + (mask.width / 2 : ℕ) : ℤ) : ℚ), (y : ℚ)) 40

/-- The left boundary contact of find_center: the coordinates of the first
non-zero sample of the left scan, or the fallback (x - 100, y) when every
sample of the left scan is zero. -/
def contact_left (mask : Mask) (x y : ℤ) : ℚ × ℚ :=
  match firstNonzero (leftScan mask x y).2.2 with
  | none => ((x : ℚ) - 100, (y : ℚ))
  | some i => ((leftScan mask x y).1.getD i 0, (leftScan mask x y).2.1.getD i 0)

/-- The right boundary contact of find_center: the coordinates of the first
non-zero sample of the right scan, or the fallback (x + 30, y) when every
sample of the right scan is zero. -/
def contact_right (mask : Mask) (x y : ℤ) : ℚ × ℚ :=
  match firstNonzero (rightScan mask x y).2.2 with
  | none => ((x : ℚ) + 30, (y : ℚ))
  | some i => ((rightScan mask x y).1.getD i 0, (rightScan mask x y).2.1.getD i 0)

/-- The road-center step of find_center: center = (contact_l + contact_r) / 2,
each component converted with Python int(), i.e. truncated toward zero. -/
def centerOf (cl cr : ℚ × ℚ) : ℤ × ℤ :=
  (pyInt ((cl.1 + cr.1) / 2), pyInt ((cl.2 + cr.2) / 2))

/-- find_center(mask, x, y): the road center on the horizontal line through
(x, y), the integer midpoint of the left and right boundary contacts. -/
def find_center (mask : Mask) (x y : ℤ) : ℤ × ℤ :=
  centerOf (contact_left mask x y) (contact_right mask x y)

/-- atan2 as computed by np.arctan2 on real (non-signed-zero) arguments:
the angle of the point (x, y), in (-pi, pi], with atan2 0 0 = 0 when both
arguments are positive zeros.  IEEE signed zeros are not representable in ℝ,
so call sites whose float arguments can be negative zero must handle that
case themselves (see arctan2_dx_negdy below). -/
noncomputable def arctan2 (y x : ℝ) : ℝ :=
  if 0 < x then Real.arctan (y / x)
  else if x < 0 then
    (if 0 ≤ y then Real.arctan (y / x) + Real.pi
     else Real.arctan (y / x) - Real.pi)
  else if 0 < y then Real.pi / 2
  else if y < 0 then -(Real.pi / 2)
  else 0

/-- np.arctan2(dx, -dy) exactly as the program evaluates it on the float
differences dx and dy.  Both differences are produced by subtraction, so a
zero difference is the positive zero +0.0; but the program negates dy before
the call, and the negation of +0.0 is IEEE -0.0.  np.arctan2 distinguishes
the sign of a zero second argument: arctan2(dx, -0.0) is pi/2 for dx > 0,
-(pi/2) for dx < 0, and pi for dx = +0.0.  For dy ≠ 0 the negation is the
ordinary real negation and the real-valued arctan2 is exact. -/
noncomputable def arctan2_dx_negdy (dx dy : ℝ) : ℝ :=
  if dy = 0 then
    (if 0 < dx then Real.pi / 2
     else if dx < 0 then -(Real.pi / 2)
     else Real.pi)
  else arctan2 dx (-dy)

/-- model_to_heading(model_xy, car_center_xy): the signed angle, in degrees,
between the vertical through the car center and the line to the model point:
heading = -atan2(dx, -dy) * 180 / pi with dx, dy the coordinate differences,
where atan2 receives the IEEE negative zero -0.0 as its second argument
whenever dy = 0 (so the degenerate input dx = dy = 0 yields -180 degrees,
since arctan2(+0.0, -0.0) = pi). -/
noncomputable def model_to_heading (model_xy car_center_xy : ℝ × ℝ) : ℝ :=
  -(arctan2_dx_negdy (model_xy.1 - car_center_xy.1)
      (model_xy.2 - car_center_xy.2))
    * 180 / Real.pi

/-- The sampled row of detect, y0 = int(img_height * 0.6).  The Python float
product img_height * 0.6 rounds to the exact value 0.6 * h for every frame
height below 10^14, so the exact rational 3/5 * h is the faithful model. -/
def rowY0 (h : ℕ) : ℤ := pyInt ((3 : ℚ) / 5 * (h : ℚ))

/-- The heading computed by detect for a well-formed 2-D mask: the road center
is searched on row y0 = int(h * 0.6) around column x0 = int(w / 2), and the
heading is taken from the car center (x0, h) to that road center.  This value
is the sole content of the returned path dictionary. -/
noncomputable def detect_heading (mask : Mask) : ℝ :=
  let x0 : ℤ := (mask.width / 2 : ℕ)
  let y0 : ℤ := rowY0 mask.height
  let rc := find_center mask x0 y0
  model_to_heading ((rc.1 : ℝ), (rc.2 : ℝ)) ((x0 : ℝ), (mask.height : ℝ))

/-- detect(mask) including the shape validation implicit in the unpacking
img_height, img_width = mask.shape: an array whose shape is not a pair makes
the unpacking raise ValueError before any sampling happens, modelled as an
error value; otherwise the path dictionary holding the heading is returned. -/
noncomputable def detect (shape : List ℕ) (pix : ℤ → ℤ → ℚ) : Except String ℝ :=
  match shape with
  | [h, w] => Except.ok (detect_heading (Mask.mk h w pix))
  | _ => Except.error "ValueError"

/-! ### Concrete masks used as witness and counterexample inputs -/

/-- The all-zero 10 x 10 mask, used as a concrete witness input. -/
def zeroMask : Mask := Mask.mk 10 10 (fun _ _ => 0)

/-- The 100 x 100 mask whose only non-zero pixels are (30, 60) and (70, 60),
the end-to-end example input of the specification. -/
def mask2 : Mask :=
  Mask.mk 100 100
    (fun xi yi => if (xi = 30 ∧ yi = 60) ∨ (xi = 70 ∧ yi = 60) then 1 else 0)

/-- A 2 x 2 all-zero mask, used as a concrete determinism witness input. -/
def maskA : Mask := Mask.mk 2 2 (fun _ _ => 0)

/-- A 2 x 2 mask whose in-grid pixels agree with maskA and whose out-of-grid
lookups differ, used as a concrete determinism witness input. -/
def maskB : Mask :=
  Mask.mk 2 2
    (fun xi yi => if 0 ≤ xi ∧ xi < 2 ∧ 0 ≤ yi ∧ yi < 2 then 0 else 7)

/-! ### Basic lemmas about the embedded operations -/

lemma pyInt_intCast (z : ℤ) : pyInt (z : ℚ) = z := by
  unfold pyInt
  split
  · have h : -(z : ℚ) = ((-z : ℤ) : ℚ) := by push_cast; ring
    rw [h, Int.floor_intCast, neg_neg]
  · exact Int.floor_intCast z

lemma pyInt_of_nonneg (q : ℚ) (h : 0 ≤ q) : pyInt q = ⌊q⌋ :=
  if_neg (not_lt.mpr h)

lemma rnd_intCast (z : ℤ) : rnd (z : ℚ) = z := by
  unfold rnd
  rw [Int.floor_int_add]
  norm_num

lemma rnd_natCast (n : ℕ) : rnd ((n : ℕ) : ℚ) = (n : ℤ) := by
  have h : ((n : ℕ) : ℚ) = (((n : ℤ)) : ℚ) := by push_cast; rfl
  rw [h, rnd_intCast]

lemma length_linspace (a b : ℚ) (num : ℕ) : (linspace a b num).length = num := by
  simp [linspace]

lemma getD_linspace (a b : ℚ) (num i : ℕ) (h : i < num) :
    (linspace a b num).getD i 0 = linAt a b num i := by
  simp [linspace, List.getD_eq_getElem?_getD, List.getElem?_range h]

lemma linAt_zero (a b : ℚ) (num : ℕ) : linAt a b num 0 = a := by
  simp [linAt]

lemma linAt_self (a : ℚ) (num i : ℕ) : linAt a a num i = a := by
  simp [linAt]

lemma linAt_last (a b : ℚ) (num : ℕ) (h : 2 ≤ num) :
    linAt a b num (num - 1) = b := by
  have h1 : (1 : ℚ) ≤ (num : ℚ) := by exact_mod_cast Nat.one_le_of_lt h
  have h2 : ((num : ℚ) - 1) ≠ 0 := by
    have : (2 : ℚ) ≤ (num : ℚ) := by exact_mod_cast h
    linarith
  have hc : ((num - 1 : ℕ) : ℚ) = (num : ℚ) - 1 := by
    have : 1 ≤ num := Nat.one_le_of_lt h
    push_cast [this]
    ring
  unfold linAt
  rw [hc, mul_div_assoc, div_self h2]
  ring

lemma profile_xs (mask : Mask) (p0 p1 : ℚ × ℚ) (num : ℕ) :
    (profile mask p0 p1 num).1 = linspace p0.1 p1.1 num := rfl

lemma profile_ys (mask : Mask) (p0 p1 : ℚ × ℚ) (num : ℕ) :
    (profile mask p0 p1 num).2.1 = linspace p0.2 p1.2 num := rfl

lemma length_profile_vals (mask : Mask) (p0 p1 : ℚ × ℚ) (num : ℕ) :
    (profile mask p0 p1 num).2.2.length = num := by
  simp [profile, length_linspace]

lemma getD_profile_vals (mask : Mask) (p0 p1 : ℚ × ℚ) (num i : ℕ)
    (h : i < num) :
    (profile mask p0 p1 num).2.2.getD i 0
      = sampleMask mask (linAt p0.1 p1.1 num i) (linAt p0.2 p1.2 num i) := by
  have hx : (linspace p0.1 p1.1 num)[i]? = some (linAt p0.1 p1.1 num i) := by
    simp [linspace, List.getElem?_range h]
  have hy : (linspace p0.2 p1.2 num)[i]? = some (linAt p0.2 p1.2 num i) := by
    simp [linspace, List.getElem?_range h]
  simp [profile, List.getD_eq_getElem?_getD, List.getElem?_zipWith, hx, hy]

lemma getD_of_lt (l : List ℚ) (i : ℕ) (h : i < l.length) :
    l.getD i 0 = l[i] := by
  simp [List.getD_eq_getElem?_getD, List.getElem?_eq_getElem h]

lemma firstNonzero_eq_some_iff (l : List ℚ) (i : ℕ) :
    firstNonzero l = some i ↔
      i < l.length ∧ l.getD i 0 ≠ 0 ∧ ∀ j, j < i → l.getD j 0 = 0 := by
  unfold firstNonzero
  rw [List.findIdx?_eq_some_iff_getElem]
  constructor
  · rintro ⟨h, hp, hb⟩
    refine ⟨h, ?_, ?_⟩
    · rw [getD_of_lt _ _ h]
      simpa using hp
    · intro j hj
      have hj' : j < l.length := by omega
      rw [getD_of_lt _ _ hj']
      simpa using hb j hj
  · rintro ⟨h, hp, hb⟩
    refine ⟨h, ?_, ?_⟩
    · rw [getD_of_lt _ _ h] at hp
      simpa using hp
    · intro j hj
      have hj' : j < l.length := by omega
      have hz := hb j hj
      rw [getD_of_lt _ _ hj'] at hz
      simpa using hz

lemma length_leftScan_vals (mask : Mask) (x y : ℤ) :
    (leftScan mask x y).2.2.length = 40 :=
  length_profile_vals ..

lemma length_rightScan_vals (mask : Mask) (x y : ℤ) :
    (rightScan mask x y).2.2.length = 40 :=
  length_profile_vals ..

lemma contact_left_snd (mask : Mask) (x y : ℤ) :
    (contact_left mask x y).2 = (y : ℚ) := by
  unfold contact_left
  cases hfz : firstNonzero (leftScan mask x y).2.2 with
  | none => rfl
  | some i =>
    have hi : i < 40 := by
      rcases (firstNonzero_eq_some_iff _ _).mp hfz with ⟨hl, -, -⟩
      rwa [length_leftScan_vals] at hl
    show (leftScan mask x y).2.1.getD i 0 = (y : ℚ)
    rw [show (leftScan mask x y).2.1 = linspace (y : ℚ) (y : ℚ) 40 from rfl,
      getD_linspace _ _ _ _ hi, linAt_self]

lemma contact_right_snd (mask : Mask) (x y : ℤ) :
    (contact_right mask x y).2 = (y : ℚ) := by
  unfold contact_right
  cases hfz : firstNonzero (rightScan mask x y).2.2 with
  | none => rfl
  | some i =>
    have hi : i < 40 := by
      rcases (firstNonzero_eq_some_iff _ _).mp hfz with ⟨hl, -, -⟩
      rwa [length_rightScan_vals] at hl
    show (rightScan mask x y).2.1.getD i 0 = (y : ℚ)
    rw [show (rightScan mask x y).2.1 = linspace (y : ℚ) (y : ℚ) 40 from rfl,
      getD_linspace _ _ _ _ hi, linAt_self]

lemma find_center_snd (mask : Mask) (x y : ℤ) :
    (find_center mask x y).2 = y := by
  unfold find_center centerOf
  show pyInt (((contact_left mask x y).2 + (contact_right mask x y).2) / 2) = y
  rw [contact_left_snd, contact_right_snd,
    show ((y : ℚ) + (y : ℚ)) / 2 = (y : ℚ) from by ring, pyInt_intCast]

lemma model_to_heading_bounds (mx my cx cy : ℝ) (h : my < cy) :
    -90 < model_to_heading (mx, my) (cx, cy)
      ∧ model_to_heading (mx, my) (cx, cy) < 90 := by
  have hne : (mx, my).2 - (cx, cy).2 ≠ 0 := by
    dsimp only
    exact sub_ne_zero.mpr (ne_of_lt h)
  have hpos : 0 < -((mx, my).2 - (cx, cy).2) := by simp; linarith
  unfold model_to_heading arctan2_dx_negdy arctan2
  rw [if_neg hne, if_pos hpos]
  have h1 : -(Real.pi / 2) < Real.arctan (((mx, my).1 - (cx, cy).1) / -((mx, my).2 - (cx, cy).2)) :=
    Real.neg_pi_div_two_lt_arctan _
  have h2 : Real.arctan (((mx, my).1 - (cx, cy).1) / -((mx, my).2 - (cx, cy).2)) < Real.pi / 2 :=
    Real.arctan_lt_pi_div_two _
  have hπ : 0 < Real.pi := Real.pi_pos
  constructor
  · rw [lt_div_iff₀ hπ]
    nlinarith
  · rw [div_lt_iff₀ hπ]
    nlinarith

/-! ### Claim theorems -/

/-- C1 counterexample: at a target equal to the reference point, dx = dy = 0,
the program negates dy = 0.0 into the IEEE negative zero -0.0 and
np.arctan2(+0.0, -0.0) = pi, so the returned heading is -180 degrees and not
0 as the claim states. -/
theorem C1_counterexample :
    model_to_heading ((0 : ℝ), (0 : ℝ)) ((0 : ℝ), (0 : ℝ)) ≠ 0 := by
  have h : model_to_heading ((0 : ℝ), (0 : ℝ)) ((0 : ℝ), (0 : ℝ)) = -180 := by
    unfold model_to_heading arctan2_dx_negdy
    dsimp only
    rw [if_pos (show (0 : ℝ) - 0 = 0 from by norm_num),
      if_neg (show ¬((0 : ℝ) < (0 : ℝ) - 0) from by norm_num),
      if_neg (show ¬((0 : ℝ) - 0 < 0) from by norm_num),
      div_eq_iff Real.pi_ne_zero]
    ring
  rw [h]
  norm_num

/-- C1 amended: for every target point and reference point, model_to_heading
returns heading = -atan2(dx, -dy) converted to degrees as numpy evaluates it,
where -dy is the IEEE negative zero when dy = 0; whenever dy ≠ 0 this agrees
with the real-valued atan2 of (dx, -dy).  The sign cases hold as claimed:
dx = 0, dy < 0 yields heading 0; dx < 0, dy < 0 yields a positive heading;
dx > 0, dy < 0 yields a negative heading; dy = 0, dx ≠ 0 yields +90 or -90
degrees matching the sign convention (left positive).  But dx = dy = 0
yields heading -180, because arctan2(+0.0, -0.0) = pi, not 0. -/
theorem C1_model_to_heading_formula_and_signs (t r : ℝ × ℝ) :
    model_to_heading t r
        = -(arctan2_dx_negdy (t.1 - r.1) (t.2 - r.2)) * 180 / Real.pi
    ∧ (t.2 - r.2 ≠ 0 → model_to_heading t r
        = -(arctan2 (t.1 - r.1) (-(t.2 - r.2))) * 180 / Real.pi)
    ∧ (t.1 - r.1 = 0 ∧ t.2 - r.2 < 0 → model_to_heading t r = 0)
    ∧ (t.1 - r.1 < 0 ∧ t.2 - r.2 < 0 → 0 < model_to_heading t r)
    ∧ (0 < t.1 - r.1 ∧ t.2 - r.2 < 0 → model_to_heading t r < 0)
    ∧ (t.2 - r.2 = 0 ∧ t.1 - r.1 < 0 → model_to_heading t r = 90)
    ∧ (t.2 - r.2 = 0 ∧ 0 < t.1 - r.1 → model_to_heading t r = -90)
    ∧ (t.1 - r.1 = 0 ∧ t.2 - r.2 = 0 → model_to_heading t r = -180) := by
  have hπ : 0 < Real.pi := Real.pi_pos
  refine ⟨rfl, ?_, ?_, ?_, ?_, ?_, ?_, ?_⟩
  · intro hne
    unfold model_to_heading arctan2_dx_negdy
    rw [if_neg hne]
  · rintro ⟨h1, h2⟩
    have hx : 0 < -(t.2 - r.2) := by linarith
    unfold model_to_heading arctan2_dx_negdy arctan2
    rw [if_neg (ne_of_lt h2), if_pos hx, h1, zero_div, Real.arctan_zero]
    simp
  · rintro ⟨h1, h2⟩
    have hx : 0 < -(t.2 - r.2) := by linarith
    unfold model_to_heading arctan2_dx_negdy arctan2
    rw [if_neg (ne_of_lt h2), if_pos hx]
    have harg : (t.1 - r.1) / -(t.2 - r.2) < 0 := div_neg_of_neg_of_pos h1 hx
    have ha : Real.arctan ((t.1 - r.1) / -(t.2 - r.2)) < 0 := by
      have := Real.arctan_strictMono harg
      rwa [Real.arctan_zero] at this
    apply div_pos _ hπ
    nlinarith
  · rintro ⟨h1, h2⟩
    have hx : 0 < -(t.2 - r.2) := by linarith
    unfold model_to_heading arctan2_dx_negdy arctan2
    rw [if_neg (ne_of_lt h2), if_pos hx]
    have harg : 0 < (t.1 - r.1) / -(t.2 - r.2) := div_pos h1 hx
    have ha : 0 < Real.arctan ((t.1 - r.1) / -(t.2 - r.2)) := by
      have := Real.arctan_strictMono harg
      rwa [Real.arctan_zero] at this
    apply div_neg_of_neg_of_pos _ hπ
    nlinarith
  · rintro ⟨h1, h2⟩
    unfold model_to_heading arctan2_dx_negdy
    rw [if_pos h1, if_neg (not_lt.mpr (le_of_lt h2)), if_pos h2, neg_neg,
      div_eq_iff (ne_of_gt hπ)]
    ring
  · rintro ⟨h1, h2⟩
    unfold model_to_heading arctan2_dx_negdy
    rw [if_pos h1, if_pos h2, div_eq_iff (ne_of_gt hπ)]
    ring
  · rintro ⟨h1, h2⟩
    unfold model_to_heading arctan2_dx_negdy
    rw [if_pos h2,
      if_neg (show ¬(0 < t.1 - r.1) from by rw [h1]; exact lt_irrefl 0),
      if_neg (show ¬(t.1 - r.1 < 0) from by rw [h1]; exact lt_irrefl 0),
      div_eq_iff (ne_of_gt hπ)]
    ring

/-- Witness for C1 at the concrete input target (0, 0), reference (0, 1):
dx = 0 and dy = -1 < 0, so the heading is 0. -/
theorem C1_witness :
    (0 : ℝ) - 1 < 0 ∧ model_to_heading ((0 : ℝ), (0 : ℝ)) ((0 : ℝ), (1 : ℝ)) = 0 :=
  ⟨by norm_num,
    (C1_model_to_heading_formula_and_signs ((0 : ℝ), (0 : ℝ)) ((0 : ℝ), (1 : ℝ))).2.2.1
      ⟨by norm_num, by norm_num⟩⟩

/-- C5: for every left contact (x1, y) and right contact (x2, y) sharing the
same y-coordinate, the road-center step returns the arithmetic midpoint
converted to integer pixel coordinates, ((x1 + x2) / 2 converted by Python
int(), y).  The operation is total: it never fails on any two points. -/
theorem C5_center_is_midpoint (x1 x2 : ℚ) (y : ℤ) :
    centerOf (x1, (y : ℚ)) (x2, (y : ℚ)) = (pyInt ((x1 + x2) / 2), y) := by
  unfold centerOf
  rw [show (((x1, (y : ℚ)).2 + ((x2, (y : ℚ))).2) / 2 : ℚ) = (y : ℚ) from by
    show ((y : ℚ) + (y : ℚ)) / 2 = (y : ℚ)
    ring]
  rw [pyInt_intCast]

/-- C8: for every input whose shape is not that of a 2-D grid, detect fails
with the validation error raised by the shape unpacking, before any sampling,
and never returns a result. -/
theorem C8_invalid_shape_errors (shape : List ℕ) (pix : ℤ → ℤ → ℚ)
    (h : shape.length ≠ 2) :
    detect shape pix = Except.error "ValueError"
      ∧ ∀ r, detect shape pix ≠ Except.ok r := by
  have he : detect shape pix = Except.error "ValueError" := by
    match shape with
    | [] => rfl
    | [a] => rfl
    | [a, b] => exact absurd rfl h
    | a :: b :: c :: t => rfl
  exact ⟨he, fun r hr => by rw [he] at hr; exact Except.noConfusion hr⟩

/-- Witness for C8 at the concrete rank-1 shape [3]. -/
theorem C8_witness :
    [3].length ≠ 2
      ∧ detect [3] (fun _ _ => 0) = Except.error "ValueError" :=
  ⟨by decide, (C8_invalid_shape_errors [3] (fun _ _ => 0) (by decide)).1⟩

/-- C4: for every mask, start point, end point and sample count N at least 2,
profile returns exactly N sampled x-coordinates, y-coordinates and values;
the first sampled point is the start point and the last is the end point; every
sampled point lies on the straight segment between them (it is
p0 + t * (p1 - p0) for some t between 0 and 1); and consecutive samples are
evenly spaced, each step being (p1 - p0) / (N - 1). -/
theorem C4_profile_samples (mask : Mask) (p0 p1 : ℚ × ℚ) (num : ℕ)
    (h : 2 ≤ num) :
    (profile mask p0 p1 num).1.length = num
    ∧ (profile mask p0 p1 num).2.1.length = num
    ∧ (profile mask p0 p1 num).2.2.length = num
    ∧ (profile mask p0 p1 num).1.getD 0 0 = p0.1
    ∧ (profile mask p0 p1 num).2.1.getD 0 0 = p0.2
    ∧ (profile mask p0 p1 num).1.getD (num - 1) 0 = p1.1
    ∧ (profile mask p0 p1 num).2.1.getD (num - 1) 0 = p1.2
    ∧ (∀ i, i < num → ∃ t : ℚ, 0 ≤ t ∧ t ≤ 1
        ∧ (profile mask p0 p1 num).1.getD i 0 = p0.1 + t * (p1.1 - p0.1)
        ∧ (profile mask p0 p1 num).2.1.getD i 0 = p0.2 + t * (p1.2 - p0.2))
    ∧ (∀ i, i + 1 < num →
        (profile mask p0 p1 num).1.getD (i + 1) 0
            - (profile mask p0 p1 num).1.getD i 0
          = (p1.1 - p0.1) / ((num : ℚ) - 1)
        ∧ (profile mask p0 p1 num).2.1.getD (i + 1) 0
            - (profile mask p0 p1 num).2.1.getD i 0
          = (p1.2 - p0.2) / ((num : ℚ) - 1)) := by
  have hd : (0 : ℚ) < (num : ℚ) - 1 := by
    have : (2 : ℚ) ≤ (num : ℚ) := by exact_mod_cast h
    linarith
  refine ⟨?_, ?_, ?_, ?_, ?_, ?_, ?_, ?_, ?_⟩
  · rw [profile_xs, length_linspace]
  · rw [profile_ys, length_linspace]
  · exact length_profile_vals ..
  · rw [profile_xs, getD_linspace _ _ _ _ (by omega), linAt_zero]
  · rw [profile_ys, getD_linspace _ _ _ _ (by omega), linAt_zero]
  · rw [profile_xs, getD_linspace _ _ _ _ (by omega), linAt_last _ _ _ h]
  · rw [profile_ys, getD_linspace _ _ _ _ (by omega), linAt_last _ _ _ h]
  · intro i hi
    refine ⟨(i : ℚ) / ((num : ℚ) - 1), ?_, ?_, ?_, ?_⟩
    · exact div_nonneg (by positivity) (le_of_lt hd)
    · rw [div_le_one hd]
      have : (i : ℚ) + 1 ≤ (num : ℚ) := by exact_mod_cast hi
      linarith
    · rw [profile_xs, getD_linspace _ _ _ _ hi]
      unfold linAt
      ring
    · rw [profile_ys, getD_linspace _ _ _ _ hi]
      unfold linAt
      ring
  · intro i hi
    constructor
    · rw [profile_xs, getD_linspace _ _ _ _ hi,
        getD_linspace _ _ _ _ (by omega)]
      unfold linAt
      push_cast
      ring
    · rw [profile_ys, getD_linspace _ _ _ _ hi,
        getD_linspace _ _ _ _ (by omega)]
      unfold linAt
      push_cast
      ring

/-- Witness for C4 at the concrete input N = 2, start (0, 0), end (1, 1) on
the all-zero mask: the profile has exactly 2 sampled x-coordinates. -/
theorem C4_witness :
    2 ≤ 2 ∧ (profile zeroMask ((0 : ℚ), (0 : ℚ)) ((1 : ℚ), (1 : ℚ)) 2).1.length = 2 :=
  ⟨le_refl 2,
    (C4_profile_samples zeroMask ((0 : ℚ), (0 : ℚ)) ((1 : ℚ), (1 : ℚ)) 2 (le_refl 2)).1⟩

/-- C10: the right scan of find_center spans half the image width past the
reference point, so its final sampled x-coordinate is x + int(w/2); for the
reference column x0 = int(w/2) used by detect on an even-width mask it equals
the width w itself and thus lies outside the grid, yet sampling it yields the
out-of-range constant 0 rather than an error, as does every sample whose
rounded coordinates fall outside the grid. -/
theorem C10_out_of_range_sampling (mask : Mask) (y : ℤ) (hw : 2 ∣ mask.width) :
    (∀ x : ℤ, (rightScan mask x y).1.getD 39 0
        = (x : ℚ) + ((mask.width / 2 : ℕ) : ℚ))
    ∧ (rightScan mask ((mask.width / 2 : ℕ) : ℤ) y).1.getD 39 0
        = (mask.width : ℚ)
    ∧ (rightScan mask ((mask.width / 2 : ℕ) : ℤ) y).2.2.getD 39 0 = 0
    ∧ ∀ (xc yc : ℚ), ¬ inGrid mask (rnd xc) (rnd yc) →
        sampleMask mask xc yc = 0 := by
  have hsum : ((mask.width / 2 : ℕ) : ℚ) + ((mask.width / 2 : ℕ) : ℚ)
      = (mask.width : ℚ) := by
    have : mask.width / 2 + mask.width / 2 = mask.width := by omega
    exact_mod_cast this
  have hx : ∀ x : ℤ, (rightScan mask x y).1.getD 39 0
      = (x : ℚ) + ((mask.width / 2 : ℕ) : ℚ) := by
    intro x
    rw [show (rightScan mask x y).1
        = linspace (x : ℚ) (((x + (mask.width / 2 : ℕ) : ℤ) : ℚ)) 40 from rfl,
      getD_linspace _ _ _ _ (by norm_num)]
    rw [show (39 : ℕ) = 40 - 1 from rfl, linAt_last _ _ _ (by norm_num)]
    rw [Int.cast_add, Int.cast_natCast]
  have hWq : (((mask.width / 2 : ℕ) : ℤ) : ℚ) + ((mask.width / 2 : ℕ) : ℚ)
      = (mask.width : ℚ) := by
    rw [Int.cast_natCast]
    exact hsum
  refine ⟨hx, ?_, ?_, ?_⟩
  · rw [hx]
    exact hWq
  · rw [show (rightScan mask ((mask.width / 2 : ℕ) : ℤ) y).2.2.getD 39 0
        = sampleMask mask
            (linAt (((mask.width / 2 : ℕ) : ℤ) : ℚ)
              (((((mask.width / 2 : ℕ) : ℤ) + (mask.width / 2 : ℕ) : ℤ) : ℚ)) 40 39)
            (linAt (y : ℚ) (y : ℚ) 40 39) from
      getD_profile_vals _ _ _ _ _ (by norm_num)]
    rw [linAt_self,
      show (39 : ℕ) = 40 - 1 from rfl, linAt_last _ _ _ (by norm_num)]
    have hcoord : ((((mask.width / 2 : ℕ) : ℤ) + (mask.width / 2 : ℕ) : ℤ) : ℚ)
        = (mask.width : ℚ) := by
      rw [Int.cast_add, Int.cast_natCast]
      exact hsum
    rw [hcoord]
    unfold sampleMask
    apply if_neg
    rw [rnd_natCast]
    intro hg
    rcases hg with ⟨-, hlt, -, -⟩
    exact absurd hlt (lt_irrefl _)
  · intro xc yc hg
    unfold sampleMask
    rw [if_neg hg]

/-- Witness for C10 on the all-zero 10 x 10 mask (even width) at row 5:
the last sampled x-coordinate of the right scan from column 5 is 10, the
full width, and its sampled value is 0. -/
theorem C10_witness :
    (2 : ℕ) ∣ 10
      ∧ (rightScan zeroMask ((10 / 2 : ℕ) : ℤ) 5).1.getD 39 0 = ((10 : ℕ) : ℚ)
      ∧ (rightScan zeroMask ((10 / 2 : ℕ) : ℤ) 5).2.2.getD 39 0 = 0 :=
  ⟨⟨5, rfl⟩, (C10_out_of_range_sampling zeroMask 5 ⟨5, rfl⟩).2.1,
    (C10_out_of_range_sampling zeroMask 5 ⟨5, rfl⟩).2.2.1⟩

lemma model_to_heading_eval :
    model_to_heading ((15 : ℝ), (60 : ℝ)) ((50 : ℝ), (100 : ℝ))
      = Real.arctan (7 / 8) * 180 / Real.pi := by
  unfold model_to_heading arctan2_dx_negdy arctan2
  dsimp only
  rw [if_neg (show ¬((60 : ℝ) - 100 = 0) from by norm_num)]
  rw [if_pos (show (0 : ℝ) < -((60 : ℝ) - 100) from by norm_num)]
  rw [show ((15 : ℝ) - 50) / -((60 : ℝ) - 100) = -(7 / 8) from by norm_num]
  rw [Real.arctan_neg, neg_neg]

/-- C2 counterexample: on the 100 x 100 mask whose only non-zero pixels are
(30, 60) and (70, 60), with reference point (50, 60), the 40 samples per side
are spaced 50/39 pixels apart and skip columns 30 and 70, so neither scan
finds a non-zero sample and the claimed contacts and road center do not
occur. -/
theorem C2_counterexample :
    ¬(contact_left mask2 50 60 = (30, 60)
      ∧ contact_right mask2 50 60 = (70, 60)
      ∧ find_center mask2 50 60 = (50, 60)) := by
  intro h
  exact absurd h.1 (by with_unfolding_all decide)

/-- C2 amended: on the end-to-end example mask the two scans miss the two
marked pixels (sample spacing 50/39 pixels exceeds one pixel), so both sides
fall back: left contact (50 - 100, 60), right contact (50 + 30, 60), road
center (15, 60), and the detect heading is arctan(7/8) in degrees, about
41.2 degrees, biased left, rather than approximately 0. -/
theorem C2_amended_fallback_result :
    contact_left mask2 50 60 = (-50, 60)
    ∧ contact_right mask2 50 60 = (80, 60)
    ∧ find_center mask2 50 60 = (15, 60)
    ∧ detect_heading mask2 = Real.arctan (7 / 8) * 180 / Real.pi
    ∧ 0 < detect_heading mask2 := by
  have hc : find_center mask2 50 60 = (15, 60) := by with_unfolding_all rfl
  have hd : detect_heading mask2 = Real.arctan (7 / 8) * 180 / Real.pi := by
    simp only [detect_heading]
    rw [show ((mask2.width / 2 : ℕ) : ℤ) = 50 from by norm_num [mask2],
      show rowY0 mask2.height = 60 from by with_unfolding_all rfl, hc]
    rw [show ((mask2.height : ℕ) : ℝ) = (100 : ℝ) from by norm_num [mask2]]
    norm_num
    exact model_to_heading_eval
  refine ⟨by with_unfolding_all rfl, by with_unfolding_all rfl, hc, hd, ?_⟩
  rw [hd]
  have ha : 0 < Real.arctan (7 / 8) := by
    have := Real.arctan_strictMono (show (0 : ℝ) < 7 / 8 from by norm_num)
    rwa [Real.arctan_zero] at this
  exact div_pos (by nlinarith) Real.pi_pos

/-- C7: detect is deterministic; its result is a pure function of the mask
content.  Two masks of identical shape and identical in-grid pixel values
yield identical headings (there is no hidden state and no randomness; the
masks may even disagree on lookups outside the grid, which detect never
consults). -/
theorem C7_detect_deterministic (m1 m2 : Mask)
    (hh : m1.height = m2.height) (hw : m1.width = m2.width)
    (hp : ∀ xi yi : ℤ, inGrid m1 xi yi → m1.pixel xi yi = m2.pixel xi yi) :
    detect_heading m1 = detect_heading m2 := by
  obtain ⟨h1, w1, p1⟩ := m1
  obtain ⟨h2, w2, p2⟩ := m2
  dsimp only at hh hw hp
  subst hh
  subst hw
  have hs : sampleMask (Mask.mk h1 w1 p1) = sampleMask (Mask.mk h1 w1 p2) := by
    funext xq yq
    unfold sampleMask
    by_cases hg : inGrid (Mask.mk h1 w1 p1) (rnd xq) (rnd yq)
    · rw [if_pos hg,
        if_pos (show inGrid (Mask.mk h1 w1 p2) (rnd xq) (rnd yq) from hg)]
      exact hp (rnd xq) (rnd yq) hg
    · rw [if_neg hg,
        if_neg (show ¬inGrid (Mask.mk h1 w1 p2) (rnd xq) (rnd yq) from hg)]
  have hcl : contact_left (Mask.mk h1 w1 p1) = contact_left (Mask.mk h1 w1 p2) := by
    funext x y
    unfold contact_left leftScan profile
    simp only [hs]
  have hcr : contact_right (Mask.mk h1 w1 p1) = contact_right (Mask.mk h1 w1 p2) := by
    funext x y
    unfold contact_right rightScan profile
    simp only [hs]
  have hfc : find_center (Mask.mk h1 w1 p1) = find_center (Mask.mk h1 w1 p2) := by
    funext x y
    unfold find_center
    rw [hcl, hcr]
  simp only [detect_heading, hfc]

/-- Witness for C7 on two concrete 2 x 2 masks that agree on every in-grid
pixel but disagree outside the grid: the headings coincide. -/
theorem C7_witness : detect_heading maskA = detect_heading maskB :=
  C7_detect_deterministic maskA maskB rfl rfl (fun xi yi hg => by
    have hg' : 0 ≤ xi ∧ xi < ((2 : ℕ) : ℤ) ∧ 0 ≤ yi ∧ yi < ((2 : ℕ) : ℤ) := hg
    obtain ⟨a, b, c, d⟩ := hg'
    show (0 : ℚ) = if 0 ≤ xi ∧ xi < 2 ∧ 0 ≤ yi ∧ yi < 2 then (0 : ℚ) else 7
    rw [if_pos ⟨a, by omega, c, by omega⟩])

/-- C9: for every mask with positive height, the heading returned by detect
lies strictly between -90 and 90 degrees: the sampled row
y0 = int(0.6 * height) is strictly above the car-center row, so the vertical
offset to the road center is negative and the atan2 argument stays in the
open right half plane. -/
theorem C9_heading_strictly_inside (mask : Mask) (hH : 1 ≤ mask.height) :
    -90 < detect_heading mask ∧ detect_heading mask < 90 := by
  have hy0 : rowY0 mask.height < (mask.height : ℤ) := by
    unfold rowY0
    rw [pyInt_of_nonneg _ (by positivity)]
    rw [Int.floor_lt]
    have h1 : (1 : ℚ) ≤ (mask.height : ℚ) := by exact_mod_cast hH
    push_cast
    linarith
  simp only [detect_heading]
  rw [find_center_snd]
  exact model_to_heading_bounds _ _ _ _ (by exact_mod_cast hy0)

/-- Witness for C9 on the all-zero 10 x 10 mask: its detect heading lies
strictly between -90 and 90 degrees. -/
theorem C9_witness :
    1 ≤ zeroMask.height
      ∧ (-90 < detect_heading zeroMask ∧ detect_heading zeroMask < 90) :=
  ⟨by decide, C9_heading_strictly_inside zeroMask (by decide)⟩

end PathDetector
